import Mathlib

/-!
# gotrain REST API server (`api/router.go`)

A shallow embedding of `api/router.go` and a verification of its
specification: the two handlers defined in the file (`apiVersion`,
`apiStatus`), the instrumentation middleware (`prometheusMiddleware`), the
route table registered by `ServeAPI`, the shutdown handshake of `ServeAPI`,
and `listenAndServe`.

The libraries the file calls (net/http, gorilla/mux, encoding/json, the
Prometheus client) are represented by small explicit models, each documented
where it is defined.
-/

namespace Gotrain

/-! ## net/http: requests and response writers -/

/-- One call made on an `http.ResponseWriter`, in the order the calls happen. -/
inductive WriterOp where
  | setHeader (key value : String)
  | writeHeader (code : Nat)
  | write (data : String)
deriving DecidableEq, Repr

/-- State of an `http.ResponseWriter`.  `header` is the map returned by
`w.Header()`; the first `WriteHeader` (explicit, or implied by the first
`Write`) freezes a copy of it in `sentHeader` together with the status code,
and later changes of `header` no longer reach the client.  `log` records the
calls in order. -/
structure ResponseWriter where
  header : List (String × String)
  wroteHeader : Bool
  status : Nat
  sentHeader : List (String × String)
  body : String
  log : List WriterOp
deriving DecidableEq, Repr

namespace ResponseWriter

/-- A response on which nothing has been set or written yet. -/
def fresh : ResponseWriter :=
  { header := [], wroteHeader := false, status := 0, sentHeader := [], body := "", log := [] }

/-- Model of `w.Header().Set(key, value)`: the entries of `key` are replaced
by the single value. -/
def setHeader (w : ResponseWriter) (key value : String) : ResponseWriter :=
  { w with
    header := (w.header.filter (fun kv => kv.1 != key)) ++ [(key, value)]
    log := w.log ++ [WriterOp.setHeader key value] }

/-- Model of `w.WriteHeader(code)`: only the first call has an effect on what
is sent. -/
def writeHeader (w : ResponseWriter) (code : Nat) : ResponseWriter :=
  if w.wroteHeader then
    { w with log := w.log ++ [WriterOp.writeHeader code] }
  else
    { w with
      wroteHeader := true
      status := code
      sentHeader := w.header
      log := w.log ++ [WriterOp.writeHeader code] }

/-- Model of `w.Write(data)`: a write on a response whose header has not been
written first sends the header with status 200. -/
def write (w : ResponseWriter) (data : String) : ResponseWriter :=
  if w.wroteHeader then
    { w with body := w.body ++ data, log := w.log ++ [WriterOp.write data] }
  else
    { w with
      wroteHeader := true
      status := 200
      sentHeader := w.header
      body := w.body ++ data
      log := w.log ++ [WriterOp.write data] }

/-- Value of a header in a header map (`Header.Get`). -/
def lookup (h : List (String × String)) (key : String) : Option String :=
  (h.find? (fun kv => kv.1 == key)).map Prod.snd

end ResponseWriter

/-! ## encoding/json -/

/-- A value stored in one of the maps this file encodes: an `int`
(`map[string]int`) or a `string` (`map[string]string`). -/
inductive JValue where
  | num (n : Int)
  | str (s : String)
deriving DecidableEq, Repr

/-- A Go map literal with string keys, as the list of its entries. -/
abbrev GoMap := List (String × JValue)

/-- Four-digit lower-case hexadecimal of a code point below 0x10000. -/
def hex4 (n : Nat) : String :=
  let d (k : Nat) : Char := (Nat.digitChar (k % 16))
  String.mk [d (n / 4096), d (n / 256), d (n / 16), d n]

/-- Escape of one character inside a JSON string, as `encoding/json` writes it
with HTML escaping on (the default of `json.NewEncoder`): quote, backslash,
newline, carriage return, tab, backspace and form feed get their
two-character escapes, the other control characters, the characters `<`, `>`,
`&` and the line separators U+2028 and U+2029 are written as `\u` and four
hexadecimal digits.  (Go before 1.22 writes backspace and form feed in the
`\u` form as well.) -/
def escapeChar (c : Char) : String :=
  if c = '"' then "\\\""
  else if c = '\\' then "\\\\"
  else if c = '\n' then "\\n"
  else if c = '\r' then "\\r"
  else if c = '\t' then "\\t"
  else if c.toNat = 8 then "\\b"
  else if c.toNat = 12 then "\\f"
  else if c.toNat < 32 ∨ c = '<' ∨ c = '>' ∨ c = '&' ∨ c.toNat = 0x2028 ∨ c.toNat = 0x2029 then
    "\\u" ++ hex4 c.toNat
  else String.singleton c

/-- A JSON string literal. -/
def encodeString (s : String) : String :=
  "\"" ++ String.join (s.data.map escapeChar) ++ "\""

/-- Insert an entry into a list of entries sorted by key. -/
def insertField (f : String × JValue) : GoMap → GoMap
  | [] => [f]
  | g :: gs => if f.1.data < g.1.data then f :: g :: gs else g :: insertField f gs

/-- Entries sorted by key: `encoding/json` writes the entries of a map in key
order. -/
def sortFields (fs : GoMap) : GoMap :=
  fs.foldr insertField []

/-- Text of a stored value. -/
def encodeValue : JValue → String
  | .num n => toString n
  | .str s => encodeString s

/-- Text of a JSON object, without insignificant white space. -/
def encodeMap (m : GoMap) : String :=
  "\x7b" ++ String.intercalate ","
    ((sortFields m).map (fun kv => encodeString kv.1 ++ ":" ++ encodeValue kv.2)) ++ "\x7d"

/-- Model of `json.NewEncoder(w).Encode(m)` for a map `m`: the JSON text
followed by a newline is written to `w` in one `Write`. -/
def jsonEncode (w : ResponseWriter) (m : GoMap) : ResponseWriter :=
  w.write (encodeMap m ++ "\n")

/-! ## The stores read by the status handler -/

/-- Modelled from the spec: a store of the `stores` package, of which this
file reads only the textual `Status` field. -/
structure Store where
  Status : String
deriving DecidableEq, Repr

/-- Modelled from the spec: the global `stores.Stores`, holding the arrival,
departure and service stores. -/
structure StoreCollection where
  ArrivalStore : Store
  DepartureStore : Store
  ServiceStore : Store
deriving DecidableEq, Repr

/-! ## Routes, requests, handlers -/

/-- Identity of the handler functions registered by `ServeAPI`. -/
inductive HandlerId where
  | apiVersion | apiStatus
  | arrivalCounters | arrivalsStation | arrivalDetails
  | departureCounters | departuresStation | departuresUicStation | departureDetails
  | serviceCounters | serviceDetails
deriving DecidableEq, Repr

/-- A route of the mux router: its path template, the methods it is
restricted to, and the handler function bound to it. -/
structure Route where
  template : String
  methods : List String
  handler : HandlerId
deriving DecidableEq, Repr

/-- An HTTP request.  `route` is the value mux stores in the request context
when a route has matched (what `mux.CurrentRoute` reads); `none` is the nil
route. -/
structure Request where
  Method : String
  Path : String
  route : Option Route
deriving DecidableEq, Repr

/-- A handler function `func(w http.ResponseWriter, r *http.Request)` of
package `api`: what it does to the response, given the stores it may read. -/
abbrev Handler := StoreCollection → ResponseWriter → Request → ResponseWriter

/-- Embedding of `apiVersion` (router.go, lines 90-97). -/
def apiVersion : Handler := fun _ w _ =>
  let version : GoMap := [("version", .num 2)]
  let w := w.setHeader "Content-Type" "application/json"
  jsonEncode w version

/-- Embedding of `apiStatus` (router.go, lines 99-108). -/
def apiStatus : Handler := fun stores w _ =>
  let version : GoMap :=
    [ ("arrivals", .str stores.ArrivalStore.Status),
      ("departures", .str stores.DepartureStore.Status),
      ("services", .str stores.ServiceStore.Status) ]
  let w := w.setHeader "Content-Type" "application/json"
  jsonEncode w version

/-- A handler function defined in another file of package `api`: given the
stores it may read, what it does to the response; `none` when it panics. -/
abbrev ExtHandler := StoreCollection → ResponseWriter → Request → Option ResponseWriter

/-- What the handler function with a given identity does to the response.
`apiVersion` and `apiStatus` are defined in router.go and always return; the
other nine live in other files of package `api` and are taken as the
parameter `ext`. -/
def handlerResponse (ext : HandlerId → ExtHandler) : HandlerId → ExtHandler
  | .apiVersion => fun stores w r => some (apiVersion stores w r)
  | .apiStatus => fun stores w r => some (apiStatus stores w r)
  | h => ext h

/-! ## Prometheus metrics -/

/-- The two metric vectors of router.go (lines 15-31), both partitioned by the
label `path`: `httpDuration` keeps the observed durations of each label, in
the order they were observed, `httpReqs` the value of each label's counter.
Durations are kept as exact differences of clock readings and counter values
as natural numbers. -/
structure Metrics where
  httpDuration : String → List Nat
  httpReqs : String → Nat

namespace Metrics

/-- Model of `httpDuration.WithLabelValues(label).Observe(d)`. -/
def observe (m : Metrics) (label : String) (d : Nat) : Metrics :=
  { m with httpDuration := fun l => if l = label then m.httpDuration l ++ [d] else m.httpDuration l }

/-- Model of `httpReqs.WithLabelValues(label).Add(n)`. -/
def add (m : Metrics) (label : String) (n : Nat) : Metrics :=
  { m with httpReqs := fun l => if l = label then m.httpReqs l + n else m.httpReqs l }

/-- Registry in which nothing has been recorded. -/
def empty : Metrics := { httpDuration := fun _ => [], httpReqs := fun _ => 0 }

end Metrics

/-- What happens while a request is served, in order. -/
inductive Event where
  | timerStart (label : String) (t : Nat)
  | handlerCall (w : ResponseWriter) (r : Request)
  | handlerReturn (w : ResponseWriter)
  | observe (label : String) (d : Nat)
  | counterAdd (label : String) (n : Nat)
deriving DecidableEq, Repr

/-- Everything outside a request that serving it can read or change: the
stores, the metrics registry, the clock and the record of events.  `clock k`
is the reading returned by the `k`-th call of `time.Now()` and `reads` the
number of calls made so far. -/
structure World where
  stores : StoreCollection
  metrics : Metrics
  clock : Nat → Nat
  reads : Nat
  trace : List Event

/-- An `http.Handler` as the server runs it; `none` is a panic. -/
abbrev HTTPHandler := World → ResponseWriter → Request → Option (World × ResponseWriter)

/-- A handler function of package `api` as an `http.Handler`
(`http.HandlerFunc`): it changes only the response. -/
def HandlerFunc (h : Handler) : HTTPHandler :=
  fun world w r => some (world, h world.stores w r)

/-- A handler function that may panic as an `http.Handler`: it changes only
the response, and its panic is the panic of the `http.Handler`. -/
def ExtHandlerFunc (h : ExtHandler) : HTTPHandler :=
  fun world w r => (h world.stores w r).map (fun w' => (world, w'))

/-- The `http.Handler` registered for a handler identity. -/
def handlerFor (ext : HandlerId → ExtHandler) (h : HandlerId) : HTTPHandler :=
  ExtHandlerFunc (handlerResponse ext h)

/-- A running `prometheus.Timer`: the label of its observer and the clock
reading taken when it was created. -/
structure Timer where
  label : String
  start : Nat
deriving DecidableEq, Repr

/-- One activation of the closure returned by `prometheusMiddleware`: the
world, the arguments `w` and `r`, and the local variables `route`, `path` and
`timer`. -/
structure Frame where
  world : World
  w : ResponseWriter
  r : Request
  route : Option Route
  path : String
  timer : Option Timer

/-- The statements of the closure of `prometheusMiddleware` (router.go, lines
36-41), in program order; the call of `next` is split into entering it and
running it to its return.  A statement yields `none` when it panics. -/
def prometheusMiddlewareSteps (next : HTTPHandler) : List (Frame → Option Frame) :=
  [ -- route := mux.CurrentRoute(r)
    fun f => some { f with route := f.r.route },
    -- path, _ := route.GetPathTemplate()   (nil route: nil dereference)
    fun f => f.route.map (fun rt => { f with path := rt.template }),
    -- timer := prometheus.NewTimer(httpDuration.WithLabelValues(path))
    fun f =>
      let t := f.world.clock f.world.reads
      some { f with
        timer := some { label := f.path, start := t }
        world := { f.world with
          reads := f.world.reads + 1
          trace := f.world.trace ++ [Event.timerStart f.path t] } },
    -- next.ServeHTTP(w, r): the call is made ...
    fun f => some { f with
      world := { f.world with trace := f.world.trace ++ [Event.handlerCall f.w f.r] } },
    -- ... and returns
    fun f => (next f.world f.w f.r).map (fun res =>
      { f with
        w := res.2
        world := { res.1 with trace := res.1.trace ++ [Event.handlerReturn res.2] } }),
    -- timer.ObserveDuration()
    fun f => f.timer.map (fun tm =>
      let d := f.world.clock f.world.reads - tm.start
      { f with
        world := { f.world with
          reads := f.world.reads + 1
          metrics := f.world.metrics.observe tm.label d
          trace := f.world.trace ++ [Event.observe tm.label d] } }),
    -- httpReqs.WithLabelValues(path).Add(1)
    fun f => some { f with
      world := { f.world with
        metrics := f.world.metrics.add f.path 1
        trace := f.world.trace ++ [Event.counterAdd f.path 1] } } ]

/-- Run statements in order, stopping at the first panic. -/
def runSteps {α : Type} : List (α → Option α) → α → Option α
  | [], a => some a
  | s :: ss, a => (s a).bind (runSteps ss)

/-- Frame of the closure at entry. -/
def Frame.enter (world : World) (w : ResponseWriter) (r : Request) : Frame :=
  { world := world, w := w, r := r, route := none, path := "", timer := none }

/-- Embedding of `prometheusMiddleware` (router.go, lines 34-43). -/
def prometheusMiddleware (next : HTTPHandler) : HTTPHandler :=
  fun world w r =>
    (runSteps (prometheusMiddlewareSteps next) (Frame.enter world w r)).map
      (fun f => (f.world, f.w))

/-- The closure of `prometheusMiddleware` interrupted after its first `k`
statements (all of them from `k = 7` on). -/
def prometheusMiddlewarePrefix (next : HTTPHandler) (k : Nat)
    (world : World) (w : ResponseWriter) (r : Request) : Option Frame :=
  runSteps ((prometheusMiddlewareSteps next).take k) (Frame.enter world w r)

/-! ## gorilla/mux: templates, matching, dispatch -/

/-- A segment of a path template: literal text, or a placeholder `{name}`
standing for one non-empty segment without a slash (the pattern `[^/]+`). -/
inductive Seg where
  | lit (text : List Char)
  | var (name : List Char)
deriving DecidableEq, Repr

/-- The pieces of a path between its slashes; a path with `n` slashes has
`n + 1` pieces, possibly empty. -/
def splitSlash : List Char → List (List Char)
  | [] => [[]]
  | c :: cs =>
    if c = '/' then [] :: splitSlash cs
    else
      match splitSlash cs with
      | [] => [[c]]
      | seg :: rest => (c :: seg) :: rest

/-- The path whose pieces are the given ones: the pieces with a slash between
each two. -/
def joinSlash : List (List Char) → List Char
  | [] => []
  | [s] => s
  | s :: t :: rest => s ++ '/' :: joinSlash (t :: rest)

/-- A piece of a template written `{name}` is a placeholder, any other piece
is literal.  (Every placeholder of the templates of `ServeAPI` is a whole
piece and carries no pattern of its own.) -/
def parseSeg (piece : List Char) : Seg :=
  match piece with
  | '{' :: rest => if rest.getLast? = some '}' then Seg.var rest.dropLast else Seg.lit piece
  | _ => Seg.lit piece

/-- The segments of a path template. -/
def parseTemplate (template : String) : List Seg :=
  (splitSlash template.data).map parseSeg

/-- Whole-path match of the pieces of a request path against the segments of
a template. -/
def matchSegs : List Seg → List (List Char) → Bool
  | [], [] => true
  | Seg.lit text :: ts, x :: xs => x == text && matchSegs ts xs
  | Seg.var _ :: ts, x :: xs => !x.isEmpty && matchSegs ts xs
  | _, _ => false

/-- The path matcher of a route: the request path matches the template
anchored at both ends. -/
def pathMatches (template path : String) : Bool :=
  matchSegs (parseTemplate template) (splitSlash path.data)

/-- The method matcher added by `.Methods(...)`. -/
def methodMatches (rt : Route) (r : Request) : Bool :=
  rt.methods.contains r.Method

/-- A mux router: its routes in registration order and the middlewares added
with `Use`. -/
structure Router where
  routes : List Route
  middlewares : List (HTTPHandler → HTTPHandler)

/-- Model of `mux.NewRouter()`. -/
def NewRouter : Router := { routes := [], middlewares := [] }

/-- Model of `router.HandleFunc(path, f).Methods(methods...)`: a new route is
appended to the router. -/
def Router.HandleFunc (router : Router) (path : String) (f : HandlerId)
    (methods : List String) : Router :=
  { router with routes := router.routes ++ [{ template := path, methods := methods, handler := f }] }

/-- Model of `router.Use(mw)`. -/
def Router.Use (router : Router) (mw : HTTPHandler → HTTPHandler) : Router :=
  { router with middlewares := router.middlewares ++ [mw] }

/-- Outcome of matching a request against the routes. -/
inductive MatchResult where
  | found (rt : Route)
  | methodNotAllowed
  | notFound
deriving DecidableEq, Repr

/-- The loop of `Router.Match` over the routes in registration order: the
first route whose path and method both match wins; a route whose path matches
but whose method does not leaves a method mismatch behind (`mismatch`), which
decides the outcome when no route matches. -/
def matchRoutes : List Route → Request → Bool → MatchResult
  | [], _, mismatch => if mismatch then MatchResult.methodNotAllowed else MatchResult.notFound
  | rt :: rest, r, mismatch =>
    if pathMatches rt.template r.Path then
      if methodMatches rt r then MatchResult.found rt
      else matchRoutes rest r true
    else matchRoutes rest r mismatch

/-- Model of `Router.Match`. -/
def Router.Match (router : Router) (r : Request) : MatchResult :=
  matchRoutes router.routes r false

/-- Model of `http.NotFound`. -/
def notFound (w : ResponseWriter) : ResponseWriter :=
  (((w.setHeader "Content-Type" "text/plain; charset=utf-8").setHeader
    "X-Content-Type-Options" "nosniff").writeHeader 404).write "404 page not found\n"

/-- Model of mux's method-not-allowed handler. -/
def methodNotAllowed (w : ResponseWriter) : ResponseWriter :=
  w.writeHeader 405

/-- The path elements that `path.Clean` keeps of a rooted path, given the
pieces between the slashes: empty pieces and `.` are dropped, `..` drops the
element kept last (and is itself dropped at the root).  `kept` holds the
elements kept so far, the last one first. -/
def cleanPieces : List (List Char) → List (List Char) → List (List Char)
  | kept, [] => kept.reverse
  | kept, piece :: rest =>
    if piece = [] ∨ piece = ['.'] then cleanPieces kept rest
    else if piece = ['.', '.'] then cleanPieces kept.tail rest
    else cleanPieces (piece :: kept) rest

/-- Model of `path.Clean` on a path that starts with a slash. -/
def pathClean (p : List Char) : List Char :=
  '/' :: joinSlash (cleanPieces [] (splitSlash p))

/-- Model of mux's `cleanPath`: the canonical form of a request path.  The
empty path becomes `/`, a path without a leading slash gets one, the path is
cleaned with `path.Clean`, and a trailing slash is put back. -/
def cleanPath (p : List Char) : List Char :=
  if p = [] then ['/']
  else
    let p := if p.head? = some '/' then p else '/' :: p
    let np := pathClean p
    if p.getLast? = some '/' ∧ np ≠ ['/'] then np ++ ['/'] else np

/-- The answer of the router to a request whose path is not in canonical
form: a redirect to the cleaned path.  (The code writes the whole request URL
with the cleaned path into `Location`; the requests of the model carry the
path only.) -/
def redirectToClean (w : ResponseWriter) (r : Request) : ResponseWriter :=
  (w.setHeader "Location" (String.mk (cleanPath r.Path.data))).writeHeader 301

/-- Model of `Router.ServeHTTP` (the router is built with `mux.NewRouter()`,
which leaves `skipClean` off): a request whose path is not in canonical form
is answered with a redirect before any matching; otherwise a matched request
is given its route and served by the route's handler wrapped in the
middlewares (the first one added outermost), and an unmatched request is
answered 405 or 404 without any middleware. -/
def Router.ServeHTTP (router : Router) (ext : HandlerId → ExtHandler) : HTTPHandler :=
  fun world w r =>
    if cleanPath r.Path.data ≠ r.Path.data then some (world, redirectToClean w r)
    else
      match router.Match r with
      | MatchResult.found rt =>
        (router.middlewares.foldr (fun mw h => mw h) (handlerFor ext rt.handler))
          world w { r with route := some rt }
      | MatchResult.methodNotAllowed => some (world, methodNotAllowed w)
      | MatchResult.notFound => some (world, notFound w)

/-! ## ServeAPI: the route table -/

/-- The router built by `ServeAPI` (router.go, lines 48-69). -/
def ServeAPIRouter : Router :=
  ((((((((((((((NewRouter.HandleFunc
    "/version" HandlerId.apiVersion ["GET"]).HandleFunc
    "/v1" HandlerId.apiVersion ["GET"]).HandleFunc
    "/v2" HandlerId.apiVersion ["GET"]).HandleFunc
    "/v2/version" HandlerId.apiVersion ["GET"]).HandleFunc
    "/v2/status" HandlerId.apiStatus ["GET"]).HandleFunc
    "/v2/arrivals/stats" HandlerId.arrivalCounters ["GET"]).HandleFunc
    "/v2/arrivals/station/{station}" HandlerId.arrivalsStation ["GET"]).HandleFunc
    "/v2/arrivals/arrival/{id}/{station}/{date}" HandlerId.arrivalDetails ["GET"]).HandleFunc
    "/v2/departures/stats" HandlerId.departureCounters ["GET"]).HandleFunc
    "/v2/departures/station/{station}" HandlerId.departuresStation ["GET"]).HandleFunc
    "/v2/departures/uic/{station}" HandlerId.departuresUicStation ["GET"]).HandleFunc
    "/v2/departures/departure/{id}/{station}/{date}" HandlerId.departureDetails ["GET"]).HandleFunc
    "/v2/services/stats" HandlerId.serviceCounters ["GET"]).HandleFunc
    "/v2/services/service/{id}/{date}" HandlerId.serviceDetails ["GET"]).Use
    prometheusMiddleware

/-- The handler installed in the server (`srv.Handler = router`). -/
def ServeAPIHandler (ext : HandlerId → ExtHandler) : HTTPHandler :=
  ServeAPIRouter.ServeHTTP ext

/-! ## ServeAPI: start and shutdown (router.go, lines 72-79) -/

/-- What the calling path of `ServeAPI` does that the rest of the process can
see, in order. -/
inductive LifeEvent where
  | spawned                 -- go listenAndServe(srv, exit)
  | logged (msg : String)   -- log.Info().Msg(msg)
  | received (v : Bool)     -- <-exit
  | closeCalled             -- srv.Close() is called
  | closeReturned           -- srv.Close() has returned
  | sent (v : Bool)         -- exit <- v
deriving DecidableEq, Repr

/-- The statement of `ServeAPI` to be executed next. -/
inductive Pc where
  | spawn | logStarted | recvExit | logShuttingDown | callClose | inClose | logShutDown
  | sendExit | returned
deriving DecidableEq, Repr

/-- State of the calling path of `ServeAPI`. -/
structure LifeState where
  pc : Pc
  trace : List LifeEvent
deriving DecidableEq, Repr

/-- What the rest of the process does at one moment: `offer` is a value a
sender holds out on the `exit` channel, `taker` says that a receiver is
waiting on it, `closeDone` that `srv.Close` has finished its work. -/
structure EnvStep where
  offer : Option Bool
  taker : Bool
  closeDone : Bool
deriving DecidableEq, Repr

/-- State of `ServeAPI` once the router is installed (line 70). -/
def ServeAPIStart : LifeState := { pc := Pc.spawn, trace := [] }

/-- One scheduling step of the calling path of `ServeAPI`: the next statement
is executed, or the path stays blocked on the channel or inside `Close`. -/
def ServeAPIStep (s : LifeState) (e : EnvStep) : LifeState :=
  match s.pc with
  | Pc.spawn => { pc := Pc.logStarted, trace := s.trace ++ [LifeEvent.spawned] }
  | Pc.logStarted =>
    { pc := Pc.recvExit, trace := s.trace ++ [LifeEvent.logged "REST API started"] }
  | Pc.recvExit =>
    match e.offer with
    | some v => { pc := Pc.logShuttingDown, trace := s.trace ++ [LifeEvent.received v] }
    | none => s
  | Pc.logShuttingDown =>
    { pc := Pc.callClose, trace := s.trace ++ [LifeEvent.logged "Shutting down REST API"] }
  | Pc.callClose => { pc := Pc.inClose, trace := s.trace ++ [LifeEvent.closeCalled] }
  | Pc.inClose =>
    if e.closeDone then { pc := Pc.logShutDown, trace := s.trace ++ [LifeEvent.closeReturned] }
    else s
  | Pc.logShutDown =>
    { pc := Pc.sendExit, trace := s.trace ++ [LifeEvent.logged "REST API shut down"] }
  | Pc.sendExit =>
    if e.taker then { pc := Pc.returned, trace := s.trace ++ [LifeEvent.sent true] }
    else s
  | Pc.returned => s

/-- An execution of `ServeAPI` under a schedule of the environment. -/
def ServeAPI (schedule : List EnvStep) : LifeState :=
  schedule.foldl ServeAPIStep ServeAPIStart

/-- The events of an execution of `ServeAPI` that runs to its end, `v` being
the value received as the stop signal. -/
def ServeAPIFullTrace (v : Bool) : List LifeEvent :=
  [ LifeEvent.spawned,
    LifeEvent.logged "REST API started",
    LifeEvent.received v,
    LifeEvent.logged "Shutting down REST API",
    LifeEvent.closeCalled,
    LifeEvent.closeReturned,
    LifeEvent.logged "REST API shut down",
    LifeEvent.sent true ]

/-- Whether an event is an acknowledgment sent on `exit`. -/
def LifeEvent.isSent : LifeEvent → Bool
  | LifeEvent.sent _ => true
  | _ => false

/-- Whether an event is the receipt of the stop signal. -/
def LifeEvent.isReceived : LifeEvent → Bool
  | LifeEvent.received _ => true
  | _ => false

/-! ## listenAndServe (router.go, lines 82-88) -/

/-- An error value returned by `srv.ListenAndServe`. -/
inductive GoError where
  | ErrServerClosed
  | other (msg : String)
deriving DecidableEq, Repr

/-- A computation that may call `srv.ListenAndServe` and continue with the
error it returns (`none` is nil), end the process through `log.Fatal`, or
return. -/
inductive Prog where
  | callListenAndServe (k : Option GoError → Prog)
  | fatal (msg : String) (err : GoError)
  | ret

/-- Embedding of `listenAndServe`. -/
def listenAndServe : Prog :=
  Prog.callListenAndServe (fun err =>
    match err with
    | some e => if e ≠ GoError.ErrServerClosed then Prog.fatal "REST API fatal error" e else Prog.ret
    | none => Prog.ret)

/-- What running a computation did. -/
structure RunResult where
  calls : Nat
  fatalLog : List (String × GoError)
  exited : Bool
deriving DecidableEq, Repr

/-- Run a computation; `srv k` is what the `k`-th call of
`srv.ListenAndServe` returns. -/
def Prog.run (srv : Nat → Option GoError) : Prog → Nat → RunResult
  | Prog.callListenAndServe k, n => (k (srv n)).run srv (n + 1)
  | Prog.fatal msg err, n => { calls := n, fatalLog := [(msg, err)], exited := true }
  | Prog.ret, n => { calls := n, fatalLog := [], exited := false }

/-! ## Specification-side notions for dispatch -/

/-- Two templates conflict when they have different numbers of segments or
differ in a position where both are literal: no path can match both. -/
def conflict : List Seg → List Seg → Bool
  | [], [] => false
  | Seg.lit a :: ts, Seg.lit b :: us => a != b || conflict ts us
  | _ :: ts, _ :: us => conflict ts us
  | _, _ => true

/-- A route matches a request when its path matcher and its method matcher
both do. -/
def routeMatches (r : Request) (rt : Route) : Bool :=
  pathMatches rt.template r.Path && methodMatches rt r

/-- Number of literal segments of a template: the more, the more specific. -/
def specificity (rt : Route) : Nat :=
  ((parseTemplate rt.template).filter (fun sg => match sg with
    | Seg.lit _ => true
    | Seg.var _ => false)).length

/-- Dispatch to the most specific match: among the routes matching the
request, one with the greatest number of literal segments. -/
def mostSpecificMatch (routes : List Route) (r : Request) : Option Route :=
  (routes.filter (routeMatches r)).argmax specificity

/-- The route a match result selects, if any. -/
def MatchResult.route? : MatchResult → Option Route
  | MatchResult.found rt => some rt
  | _ => none

/-- No path matches the templates of both routes. -/
def Apart (a b : Route) : Prop :=
  ∀ path : String, ¬ (pathMatches a.template path = true ∧ pathMatches b.template path = true)

/-- Position of a statement of `ServeAPI` among the events of a full
execution: the number of events that precede it. -/
def Pc.index : Pc → Nat
  | Pc.spawn => 0
  | Pc.logStarted => 1
  | Pc.recvExit => 2
  | Pc.logShuttingDown => 3
  | Pc.callClose => 4
  | Pc.inClose => 5
  | Pc.logShutDown => 6
  | Pc.sendExit => 7
  | Pc.returned => 8

/-- Whether an event is a call of the wrapped handler. -/
def Event.isHandlerCall : Event → Bool
  | Event.handlerCall _ _ => true
  | _ => false

/-- The entries of the map `apiStatus` encodes, for given stores. -/
def statusEntries (stores : StoreCollection) : GoMap :=
  [ ("arrivals", JValue.str stores.ArrivalStore.Status),
    ("departures", JValue.str stores.DepartureStore.Status),
    ("services", JValue.str stores.ServiceStore.Status) ]

/-! ## Lemmas on response writers and on the middleware -/

theorem lookup_setHeader (w : ResponseWriter) (key value : String) :
    ResponseWriter.lookup (w.setHeader key value).header key = some value := by
  unfold ResponseWriter.lookup ResponseWriter.setHeader
  simp only [List.find?_append]
  have h : List.find? (fun kv => kv.1 == key)
      (List.filter (fun kv => kv.1 != key) w.header) = none := by
    simp [List.find?_eq_none]
  simp [h]

theorem prometheusMiddleware_HandlerFunc (h : Handler) (world : World) (w : ResponseWriter)
    (r : Request) (rt : Route) (hr : r.route = some rt) :
    prometheusMiddleware (HandlerFunc h) world w r =
      some
        ({ stores := world.stores
           metrics := (world.metrics.observe rt.template
              (world.clock (world.reads + 1) - world.clock world.reads)).add rt.template 1
           clock := world.clock
           reads := world.reads + 2
           trace := world.trace ++
            [ Event.timerStart rt.template (world.clock world.reads),
              Event.handlerCall w r,
              Event.handlerReturn (h world.stores w r),
              Event.observe rt.template (world.clock (world.reads + 1) - world.clock world.reads),
              Event.counterAdd rt.template 1 ] },
         h world.stores w r) := by
  simp [prometheusMiddleware, prometheusMiddlewareSteps, runSteps, HandlerFunc, Frame.enter, hr]

theorem prometheusMiddleware_ExtHandlerFunc (h : ExtHandler) (world : World)
    (w w' : ResponseWriter) (r : Request) (rt : Route) (hr : r.route = some rt)
    (hret : h world.stores w r = some w') :
    prometheusMiddleware (ExtHandlerFunc h) world w r =
      some
        ({ stores := world.stores
           metrics := (world.metrics.observe rt.template
              (world.clock (world.reads + 1) - world.clock world.reads)).add rt.template 1
           clock := world.clock
           reads := world.reads + 2
           trace := world.trace ++
            [ Event.timerStart rt.template (world.clock world.reads),
              Event.handlerCall w r,
              Event.handlerReturn w',
              Event.observe rt.template (world.clock (world.reads + 1) - world.clock world.reads),
              Event.counterAdd rt.template 1 ] },
         w') := by
  simp [prometheusMiddleware, prometheusMiddlewareSteps, runSteps, ExtHandlerFunc, Frame.enter,
    hr, hret]

theorem prometheusMiddleware_panic (h : ExtHandler) (world : World)
    (w : ResponseWriter) (r : Request) (hret : h world.stores w r = none) :
    prometheusMiddleware (ExtHandlerFunc h) world w r = none := by
  cases hr : r.route <;>
    simp [prometheusMiddleware, prometheusMiddlewareSteps, runSteps, ExtHandlerFunc,
      Frame.enter, hr, hret]

/-! ## Lemmas on matching -/

theorem splitSlash_ne_nil (p : List Char) : splitSlash p ≠ [] := by
  induction p with
  | nil => simp [splitSlash]
  | cons c cs ih =>
    unfold splitSlash
    split
    · simp
    · split <;> simp

theorem joinSlash_cons_cons (c : Char) (seg : List Char) (rest : List (List Char)) :
    joinSlash ((c :: seg) :: rest) = c :: joinSlash (seg :: rest) := by
  cases rest <;> simp [joinSlash]

theorem joinSlash_splitSlash (p : List Char) : joinSlash (splitSlash p) = p := by
  induction p with
  | nil => simp [splitSlash, joinSlash]
  | cons c cs ih =>
    unfold splitSlash
    split
    · rename_i hc
      cases hs : splitSlash cs with
      | nil => exact absurd hs (splitSlash_ne_nil cs)
      | cons t rest =>
        rw [hs] at ih
        simp [joinSlash, ih, hc]
    · cases hs : splitSlash cs with
      | nil => exact absurd hs (splitSlash_ne_nil cs)
      | cons t rest =>
        rw [hs] at ih
        simp only
        rw [joinSlash_cons_cons, ih]

theorem splitSlash_slash_free (p : List Char) : ∀ seg ∈ splitSlash p, '/' ∉ seg := by
  induction p with
  | nil => simp [splitSlash]
  | cons c cs ih =>
    unfold splitSlash
    split
    · intro seg hseg
      rcases List.mem_cons.mp hseg with h | h
      · simp [h]
      · exact ih seg h
    · rename_i hc
      cases hs : splitSlash cs with
      | nil => exact absurd hs (splitSlash_ne_nil cs)
      | cons t rest =>
        rw [hs] at ih
        intro seg hseg
        rcases List.mem_cons.mp hseg with h | h
        · subst h
          intro hmem
          rcases List.mem_cons.mp hmem with h1 | h1
          · exact hc h1.symm
          · exact ih t (List.mem_cons_self t rest) h1
        · exact ih seg (List.mem_cons_of_mem t h)

theorem splitSlash_append_slash (s : List Char) (hs : '/' ∉ s) (q : List Char) :
    splitSlash (s ++ '/' :: q) = s :: splitSlash q := by
  induction s with
  | nil => simp [splitSlash]
  | cons c cs ih =>
    have hc : c ≠ '/' := fun h => hs (by simp [h])
    have hcs : '/' ∉ cs := fun h => hs (List.mem_cons_of_mem c h)
    have h := ih hcs
    rw [List.cons_append, splitSlash, if_neg hc, h]

theorem splitSlash_of_slash_free (s : List Char) (hs : '/' ∉ s) : splitSlash s = [s] := by
  induction s with
  | nil => simp [splitSlash]
  | cons c cs ih =>
    have hc : c ≠ '/' := fun h => hs (by simp [h])
    have hcs : '/' ∉ cs := fun h => hs (List.mem_cons_of_mem c h)
    simp only [splitSlash, hc, if_false, ih hcs]

theorem splitSlash_joinSlash (segs : List (List Char)) (hne : segs ≠ [])
    (hfree : ∀ seg ∈ segs, '/' ∉ seg) : splitSlash (joinSlash segs) = segs := by
  induction segs with
  | nil => exact absurd rfl hne
  | cons s rest ih =>
    cases rest with
    | nil => simpa [joinSlash] using splitSlash_of_slash_free s (hfree s (List.mem_cons_self s []))
    | cons t rest =>
      simp only [joinSlash]
      rw [splitSlash_append_slash s (hfree s (List.mem_cons_self s _)),
        ih (by simp) (fun seg h => hfree seg (List.mem_cons_of_mem s h))]

theorem pathMatches_iff (template path : String) :
    pathMatches template path = true ↔
      ∃ segs : List (List Char), (∀ seg ∈ segs, '/' ∉ seg) ∧ joinSlash segs = path.data ∧
        matchSegs (parseTemplate template) segs = true := by
  constructor
  · intro h
    exact ⟨splitSlash path.data, splitSlash_slash_free _, joinSlash_splitSlash _, h⟩
  · rintro ⟨segs, hfree, hjoin, hm⟩
    have hne : segs ≠ [] := by
      rintro rfl
      have : parseTemplate template ≠ [] := by
        simp [parseTemplate, splitSlash_ne_nil]
      cases hp : parseTemplate template with
      | nil => exact this hp
      | cons a l => rw [hp] at hm; cases a <;> simp [matchSegs] at hm
    unfold pathMatches
    rw [← hjoin, splitSlash_joinSlash segs hne hfree]
    exact hm

theorem serviceDetails_path (path : String) :
    pathMatches "/v2/services/service/{id}/{date}" path = true ↔
      ∃ id date : List Char, id ≠ [] ∧ date ≠ [] ∧ '/' ∉ id ∧ '/' ∉ date ∧
        path.data = "/v2/services/service/".data ++ id ++ '/' :: date := by
  have hp : parseTemplate "/v2/services/service/{id}/{date}" =
      [Seg.lit [], Seg.lit "v2".data, Seg.lit "services".data, Seg.lit "service".data,
        Seg.var "id".data, Seg.var "date".data] := by decide
  rw [pathMatches_iff, hp]
  constructor
  · rintro ⟨segs, hfree, hjoin, hm⟩
    rcases segs with _ | ⟨s0, _ | ⟨s1, _ | ⟨s2, _ | ⟨s3, _ | ⟨id, _ | ⟨date, _ | ⟨x, rest⟩⟩⟩⟩⟩⟩⟩ <;>
      simp only [matchSegs, Bool.and_eq_true, beq_iff_eq, Bool.not_eq_true',
        List.isEmpty_eq_false, Bool.and_true, Bool.and_false, Bool.false_eq_true,
        and_false] at hm
    obtain ⟨h0, h1, h2, h3, h4, h5⟩ := hm
    subst h0 h1 h2 h3
    refine ⟨id, date, ?_, ?_, hfree id (by simp), hfree date (by simp), ?_⟩
    · rintro rfl; simp at h4
    · rintro rfl; simp at h5
    · rw [← hjoin]; simp [joinSlash]
  · rintro ⟨id, date, hid, hdate, hfid, hfdate, hpath⟩
    refine ⟨[[], "v2".data, "services".data, "service".data, id, date], ?_, ?_, ?_⟩
    · intro seg hseg
      simp only [List.mem_cons, List.mem_singleton, List.not_mem_nil, or_false] at hseg
      rcases hseg with h | h | h | h | h | h <;> subst h <;> first | assumption | decide
    · rw [hpath]; simp [joinSlash]
    · simp [matchSegs, hid, hdate]

theorem conflict_sound (t u : List Seg) (xs : List (List Char))
    (hc : conflict t u = true) (ht : matchSegs t xs = true) : matchSegs u xs = false := by
  induction t generalizing u xs with
  | nil =>
    cases xs with
    | nil =>
      cases u with
      | nil => simp [conflict] at hc
      | cons b us => cases b <;> simp [matchSegs]
    | cons x xs => simp [matchSegs] at ht
  | cons a ts ih =>
    cases xs with
    | nil => cases a <;> simp [matchSegs] at ht
    | cons x xs =>
      cases u with
      | nil => simp [matchSegs]
      | cons b us =>
        cases a <;> cases b <;> simp [matchSegs, conflict] at hc ht ⊢
        · rcases hc with hc | hc
          · intro hx; exact absurd (ht.1.symm.trans hx) hc
          · intro _; exact ih us xs hc ht.2
        · intro _; exact ih us xs hc ht.2
        · intro _; exact ih us xs hc ht.2
        · intro _; exact ih us xs hc ht.2

theorem Apart.symm {a b : Route} (h : Apart a b) : Apart b a :=
  fun path hp => h path ⟨hp.2, hp.1⟩

theorem apart_of_conflict (a b : Route)
    (hc : conflict (parseTemplate a.template) (parseTemplate b.template) = true) : Apart a b := by
  intro path hp
  have := conflict_sound _ _ (splitSlash path.data) hc hp.1
  unfold pathMatches at hp
  rw [this] at hp
  exact Bool.false_ne_true hp.2

set_option maxRecDepth 100000 in
theorem ServeAPI_templates_conflict :
    ServeAPIRouter.routes.Pairwise
      (fun a b => conflict (parseTemplate a.template) (parseTemplate b.template) = true) := by
  decide

theorem ServeAPI_routes_apart : ServeAPIRouter.routes.Pairwise Apart :=
  ServeAPI_templates_conflict.imp (fun {a b} h => apart_of_conflict a b h)

theorem matchRoutes_none (routes : List Route) (r : Request) (mm : Bool)
    (h : ∀ rt ∈ routes, pathMatches rt.template r.Path = false) :
    matchRoutes routes r mm =
      if mm then MatchResult.methodNotAllowed else MatchResult.notFound := by
  induction routes generalizing mm with
  | nil => simp [matchRoutes]
  | cons a l ih =>
    have ha := h a (List.mem_cons_self a l)
    simp only [matchRoutes, ha, Bool.false_eq_true, if_false]
    exact ih mm (fun rt hrt => h rt (List.mem_cons_of_mem a hrt))

theorem matchRoutes_path (routes : List Route) (r : Request) (mm : Bool) (rt : Route)
    (hp : routes.Pairwise Apart) (hmem : rt ∈ routes)
    (hpath : pathMatches rt.template r.Path = true) :
    matchRoutes routes r mm =
      if methodMatches rt r then MatchResult.found rt else MatchResult.methodNotAllowed := by
  induction routes generalizing mm with
  | nil => simp at hmem
  | cons a l ih =>
    rw [List.pairwise_cons] at hp
    rcases List.mem_cons.mp hmem with heq | hin
    · subst heq
      simp only [matchRoutes, hpath, if_true]
      by_cases hm : methodMatches rt r = true
      · simp [hm]
      · simp only [hm, if_false]
        rw [matchRoutes_none l r true]
        · simp
        · intro b hb
          have := hp.1 b hb r.Path
          cases hb2 : pathMatches b.template r.Path
          · rfl
          · exact absurd ⟨hpath, hb2⟩ this
    · have ha : pathMatches a.template r.Path = false := by
        have := hp.1 rt hin r.Path
        cases ha2 : pathMatches a.template r.Path
        · rfl
        · exact absurd ⟨ha2, hpath⟩ this
      simp only [matchRoutes, ha, Bool.false_eq_true, if_false]
      exact ih mm hp.2 hin

theorem not_pathMatches_of_apart (a : Route) (l : List Route) (r : Request)
    (ha : ∀ b ∈ l, Apart a b) (hpath : pathMatches a.template r.Path = true) :
    ∀ b ∈ l, pathMatches b.template r.Path = false := by
  intro b hb
  cases hb2 : pathMatches b.template r.Path
  · rfl
  · exact absurd ⟨hpath, hb2⟩ (ha b hb r.Path)

theorem filter_routeMatches (routes : List Route) (r : Request)
    (hp : routes.Pairwise Apart) :
    routes.filter (routeMatches r) = (matchRoutes routes r false).route?.toList := by
  induction routes with
  | nil => simp [matchRoutes, MatchResult.route?]
  | cons a l ih =>
    rw [List.pairwise_cons] at hp
    cases hpath : pathMatches a.template r.Path
    · have hrm : routeMatches r a = false := by simp [routeMatches, hpath]
      simp only [List.filter_cons, hrm, matchRoutes, hpath, Bool.false_eq_true, if_false]
      exact ih hp.2
    · have hrest := not_pathMatches_of_apart a l r hp.1 hpath
      have hnil : l.filter (routeMatches r) = [] := by
        rw [List.filter_eq_nil_iff]
        intro b hb
        simp [routeMatches, hrest b hb]
      cases hm : methodMatches a r
      · have hrm : routeMatches r a = false := by simp [routeMatches, hm]
        simp only [List.filter_cons, hrm, matchRoutes, hpath, hm, Bool.false_eq_true, if_false,
          if_true, hnil]
        rw [matchRoutes_none l r true hrest]
        simp [MatchResult.route?]
      · have hrm : routeMatches r a = true := by simp [routeMatches, hm, hpath]
        simp [List.filter_cons, hrm, matchRoutes, hpath, hm, hnil, MatchResult.route?]

theorem matchRoutes_perm (routes routes' : List Route) (r : Request)
    (hp : routes.Pairwise Apart) (hperm : routes'.Perm routes) :
    matchRoutes routes' r false = matchRoutes routes r false := by
  have hp' : routes'.Pairwise Apart :=
    (hperm.pairwise_iff (fun {a b} h => Apart.symm h)).mpr hp
  by_cases hex : ∃ rt ∈ routes, pathMatches rt.template r.Path = true
  · obtain ⟨rt, hmem, hpath⟩ := hex
    rw [matchRoutes_path routes r false rt hp hmem hpath,
      matchRoutes_path routes' r false rt hp' (hperm.mem_iff.mpr hmem) hpath]
  · have hnone : ∀ rt ∈ routes, pathMatches rt.template r.Path = false := by
      intro rt hrt
      cases h : pathMatches rt.template r.Path
      · rfl
      · exact absurd ⟨rt, hrt, h⟩ hex
    rw [matchRoutes_none routes r false hnone,
      matchRoutes_none routes' r false (fun rt hrt => hnone rt (hperm.mem_iff.mp hrt))]

theorem ServeAPIRouter_middlewares :
    ServeAPIRouter.middlewares = [prometheusMiddleware] := rfl

theorem ServeAPIHandler_found (ext : HandlerId → ExtHandler) (world : World)
    (w : ResponseWriter) (r : Request) (rt : Route)
    (hclean : cleanPath r.Path.data = r.Path.data)
    (h : ServeAPIRouter.Match r = MatchResult.found rt) :
    ServeAPIHandler ext world w r =
      prometheusMiddleware (handlerFor ext rt.handler) world w
        { r with route := some rt } := by
  simp [ServeAPIHandler, Router.ServeHTTP, h, hclean, ServeAPIRouter_middlewares]

theorem ServeAPIRouter_match_of_path (r : Request) (rt : Route)
    (hmem : rt ∈ ServeAPIRouter.routes) (hget : r.Method = "GET")
    (hpath : pathMatches rt.template r.Path = true) :
    ServeAPIRouter.Match r = MatchResult.found rt := by
  have hm : methodMatches rt r = true := by
    have hall : ∀ x ∈ ServeAPIRouter.routes, x.methods = ["GET"] := by decide
    simp [methodMatches, hall rt hmem, hget]
  unfold Router.Match
  rw [matchRoutes_path _ r false rt ServeAPI_routes_apart hmem hpath]
  simp [hm]

/-! ## The claims -/

/-- C1: the four routes `/version`, `/v1`, `/v2` and `/v2/version` are
registered for GET with the handler `apiVersion`, and `apiVersion` writes the
same thing whatever the request and the stores: the header, then the JSON
encoding of the one-entry map with key "version" and value 2 (the text
`{"version":2}` followed by the newline `Encode` appends); a GET request on
any of the four paths is answered with exactly that. -/
theorem version_routes_same_payload :
    (∀ t ∈ ["/version", "/v1", "/v2", "/v2/version"],
      ({ template := t, methods := ["GET"], handler := HandlerId.apiVersion } : Route)
        ∈ ServeAPIRouter.routes) ∧
    (∀ ext : HandlerId → ExtHandler,
      handlerFor ext HandlerId.apiVersion = HandlerFunc apiVersion) ∧
    (∀ (stores : StoreCollection) (w : ResponseWriter) (r : Request),
      apiVersion stores w r =
        (w.setHeader "Content-Type" "application/json").write
          (encodeMap [("version", JValue.num 2)] ++ "\n")) ∧
    encodeMap [("version", JValue.num 2)] = "\x7b\"version\":2\x7d" ∧
    (∀ (stores stores' : StoreCollection) (w : ResponseWriter) (r r' : Request),
      apiVersion stores w r = apiVersion stores' w r') ∧
    (∀ (ext : HandlerId → ExtHandler) (world : World) (w : ResponseWriter) (r : Request),
      r.Method = "GET" → r.Path ∈ ["/version", "/v1", "/v2", "/v2/version"] →
      (ServeAPIHandler ext world w r).map Prod.snd =
        some ((w.setHeader "Content-Type" "application/json").write "\x7b\"version\":2\x7d\n")) := by
  refine ⟨by decide, fun _ => rfl, fun _ _ _ => rfl, by decide, fun _ _ _ _ _ => rfl, ?_⟩
  intro ext world w r hget hpath
  have key : ∀ t ∈ ["/version", "/v1", "/v2", "/v2/version"],
      ({ template := t, methods := ["GET"], handler := HandlerId.apiVersion } : Route)
        ∈ ServeAPIRouter.routes ∧ pathMatches t t = true ∧ cleanPath t.data = t.data := by
    decide
  obtain ⟨hmem, hself, hclean⟩ := key r.Path hpath
  have hm := ServeAPIRouter_match_of_path r _ hmem hget hself
  have hh : handlerFor ext HandlerId.apiVersion = HandlerFunc apiVersion := rfl
  rw [ServeAPIHandler_found ext world w r _ hclean hm]
  simp only [hh]
  rw [prometheusMiddleware_HandlerFunc _ world w _ _ rfl]
  have henc : encodeMap [("version", JValue.num 2)] ++ "\n" = "\x7b\"version\":2\x7d\n" := by decide
  simp only [Option.map_some', apiVersion, jsonEncode, henc]

/-- Witness of C1: a GET request on `/v2` is answered with status 200 and the
body `{"version":2}` plus newline. -/
theorem version_routes_same_payload_witness :
    (ServeAPIHandler (fun _ _ _ _ => none)
        { stores := ⟨⟨"UP"⟩, ⟨"UP"⟩, ⟨"UP"⟩⟩, metrics := Metrics.empty, clock := fun k => k,
          reads := 0, trace := [] }
        ResponseWriter.fresh { Method := "GET", Path := "/v2", route := none }).map Prod.snd =
      some { header := [("Content-Type", "application/json")], wroteHeader := true, status := 200,
             sentHeader := [("Content-Type", "application/json")], body := "\x7b\"version\":2\x7d\n",
             log := [WriterOp.setHeader "Content-Type" "application/json",
                     WriterOp.write "\x7b\"version\":2\x7d\n"] } :=
  (version_routes_same_payload.2.2.2.2.2 (fun _ _ _ _ => none) _ ResponseWriter.fresh
    { Method := "GET", Path := "/v2", route := none } rfl (by decide)).trans (by decide)

/-- C2: whatever the stores hold, `apiStatus` writes the JSON object with
exactly the keys arrivals, departures and services, each with the `Status` of
the corresponding store at the time of the call; the handler leaves the stores
as they are and keeps nothing between requests, so when the stores change
after a first `/v2/status` request, a second request is answered from the new
values alone. -/
theorem status_reads_stores_at_request_time :
    (∀ (stores : StoreCollection) (w : ResponseWriter) (r : Request),
      apiStatus stores w r =
        (w.setHeader "Content-Type" "application/json").write
          (encodeMap (statusEntries stores) ++ "\n")) ∧
    (∀ stores : StoreCollection,
      (sortFields (statusEntries stores)).map Prod.fst = ["arrivals", "departures", "services"] ∧
      encodeMap (statusEntries stores) =
        "\x7b\"arrivals\":" ++ encodeString stores.ArrivalStore.Status ++
        ",\"departures\":" ++ encodeString stores.DepartureStore.Status ++
        ",\"services\":" ++ encodeString stores.ServiceStore.Status ++ "\x7d") ∧
    (∀ s s' : StoreCollection, statusEntries s = statusEntries s' → s = s') ∧
    (∀ (ext : HandlerId → ExtHandler) (world : World) (w₁ w₂ : ResponseWriter)
        (newStores : StoreCollection),
      ∃ world₁ world₂ : World,
        ServeAPIHandler ext world w₁ { Method := "GET", Path := "/v2/status", route := none } =
          some (world₁, (w₁.setHeader "Content-Type" "application/json").write
            (encodeMap (statusEntries world.stores) ++ "\n")) ∧
        world₁.stores = world.stores ∧
        ServeAPIHandler ext { world₁ with stores := newStores } w₂
            { Method := "GET", Path := "/v2/status", route := none } =
          some (world₂, (w₂.setHeader "Content-Type" "application/json").write
            (encodeMap (statusEntries newStores) ++ "\n")) ∧
        world₂.stores = newStores) := by
  refine ⟨fun _ _ _ => rfl, ?_, ?_, ?_⟩
  · intro stores
    have hsort : sortFields (statusEntries stores) = statusEntries stores := by
      simp only [sortFields, statusEntries, List.foldr, insertField]
      rfl
    refine ⟨by rw [hsort]; rfl, ?_⟩
    simp only [encodeMap, hsort, statusEntries, List.map, String.intercalate,
      String.intercalate.go, encodeValue]
    have hk : encodeString "arrivals" = "\"arrivals\"" ∧
        encodeString "departures" = "\"departures\"" ∧
        encodeString "services" = "\"services\"" := by decide
    rw [hk.1, hk.2.1, hk.2.2]
    simp only [String.append_assoc]
    rfl
  · rintro ⟨⟨a⟩, ⟨d⟩, ⟨s⟩⟩ ⟨⟨a'⟩, ⟨d'⟩, ⟨s'⟩⟩ h
    simp only [statusEntries, List.cons.injEq, Prod.mk.injEq, JValue.str.injEq, true_and,
      and_true] at h
    obtain ⟨h1, h2, h3⟩ := h
    subst h1 h2 h3
    rfl
  · intro ext world w₁ w₂ newStores
    have hm : ∀ rt0 : Option Route,
        ServeAPIRouter.Match { Method := "GET", Path := "/v2/status", route := rt0 } =
          MatchResult.found ⟨"/v2/status", ["GET"], HandlerId.apiStatus⟩ := by
      intro rt0
      exact ServeAPIRouter_match_of_path _ _ (by decide) rfl
        (by decide : pathMatches "/v2/status" "/v2/status" = true)
    have step : ∀ (wd : World) (w : ResponseWriter), ∃ wd' : World,
        ServeAPIHandler ext wd w { Method := "GET", Path := "/v2/status", route := none } =
          some (wd', (w.setHeader "Content-Type" "application/json").write
            (encodeMap (statusEntries wd.stores) ++ "\n")) ∧ wd'.stores = wd.stores := by
      intro wd w
      have hh : handlerFor ext HandlerId.apiStatus = HandlerFunc apiStatus := rfl
      rw [ServeAPIHandler_found ext wd w _ _ (by decide) (hm none)]
      simp only [hh]
      rw [prometheusMiddleware_HandlerFunc _ wd w _ _ rfl]
      exact ⟨_, rfl, rfl⟩
    obtain ⟨world₁, h1, hs1⟩ := step world w₁
    obtain ⟨world₂, h2, hs2⟩ := step { world₁ with stores := newStores } w₂
    exact ⟨world₁, world₂, h1, hs1, h2, hs2⟩

/-- Witness of C2: with the statuses UP, DOWN and UNKNOWN the object written
has the three keys with these values. -/
theorem status_reads_stores_at_request_time_witness :
    encodeMap (statusEntries ⟨⟨"UP"⟩, ⟨"DOWN"⟩, ⟨"UNKNOWN"⟩⟩) =
      "\x7b\"arrivals\":\"UP\",\"departures\":\"DOWN\",\"services\":\"UNKNOWN\"\x7d" :=
  ((status_reads_stores_at_request_time.2.1 ⟨⟨"UP"⟩, ⟨"DOWN"⟩, ⟨"UNKNOWN"⟩⟩).2).trans (by decide)

/-- C9: `apiVersion` and `apiStatus` make exactly two calls on the response
writer, first `Header().Set("Content-Type", "application/json")` and then the
single write of the JSON body, so the header is set before any byte of the
body is written; the header map holds that value afterwards, and on a response
whose header had not been sent the header goes out with status 200 and
Content-Type application/json. -/
theorem content_type_json_before_body (stores : StoreCollection) (w : ResponseWriter)
    (r : Request) :
    ((apiVersion stores w r).log =
        w.log ++ [ WriterOp.setHeader "Content-Type" "application/json",
                   WriterOp.write "\x7b\"version\":2\x7d\n" ] ∧
      (apiStatus stores w r).log =
        w.log ++ [ WriterOp.setHeader "Content-Type" "application/json",
                   WriterOp.write (encodeMap (statusEntries stores) ++ "\n") ]) ∧
    (ResponseWriter.lookup (apiVersion stores w r).header "Content-Type"
        = some "application/json" ∧
      ResponseWriter.lookup (apiStatus stores w r).header "Content-Type"
        = some "application/json") ∧
    (w.wroteHeader = false →
      (ResponseWriter.lookup (apiVersion stores w r).sentHeader "Content-Type"
          = some "application/json" ∧
        (apiVersion stores w r).status = 200 ∧
        (apiVersion stores w r).body = w.body ++ "\x7b\"version\":2\x7d\n") ∧
      (ResponseWriter.lookup (apiStatus stores w r).sentHeader "Content-Type"
          = some "application/json" ∧
        (apiStatus stores w r).status = 200 ∧
        (apiStatus stores w r).body = w.body ++ encodeMap (statusEntries stores) ++ "\n")) := by
  have henc : encodeMap [("version", JValue.num 2)] ++ "\n" = "\x7b\"version\":2\x7d\n" := by decide
  have hv : apiVersion stores w r =
      (w.setHeader "Content-Type" "application/json").write "\x7b\"version\":2\x7d\n" := by
    simp only [apiVersion, jsonEncode, henc]
  have hs : apiStatus stores w r =
      (w.setHeader "Content-Type" "application/json").write
        (encodeMap (statusEntries stores) ++ "\n") := rfl
  have hlog : ∀ data : String,
      ((w.setHeader "Content-Type" "application/json").write data).log =
        w.log ++ [WriterOp.setHeader "Content-Type" "application/json", WriterOp.write data] := by
    intro data
    unfold ResponseWriter.write
    split <;> simp [ResponseWriter.setHeader]
  have hhdr : ∀ data : String,
      ((w.setHeader "Content-Type" "application/json").write data).header =
        (w.setHeader "Content-Type" "application/json").header := by
    intro data
    unfold ResponseWriter.write
    split <;> rfl
  have hfresh : w.wroteHeader = false → ∀ data : String,
      ((w.setHeader "Content-Type" "application/json").write data).sentHeader =
          (w.setHeader "Content-Type" "application/json").header ∧
        ((w.setHeader "Content-Type" "application/json").write data).status = 200 ∧
        ((w.setHeader "Content-Type" "application/json").write data).body = w.body ++ data := by
    intro hw data
    simp [ResponseWriter.write, ResponseWriter.setHeader, hw]
  rw [hv, hs]
  refine ⟨⟨hlog _, hlog _⟩, ⟨?_, ?_⟩, ?_⟩
  · rw [hhdr]; exact lookup_setHeader w _ _
  · rw [hhdr]; exact lookup_setHeader w _ _
  · intro hw
    obtain ⟨a1, a2, a3⟩ := hfresh hw "\x7b\"version\":2\x7d\n"
    obtain ⟨b1, b2, b3⟩ := hfresh hw (encodeMap (statusEntries stores) ++ "\n")
    refine ⟨⟨?_, a2, a3⟩, ⟨?_, b2, ?_⟩⟩
    · rw [a1]; exact lookup_setHeader w _ _
    · rw [b1]; exact lookup_setHeader w _ _
    · rw [b3, String.append_assoc]

/-- Witness of C9: on a fresh response the header sent with `apiStatus`'s
answer carries Content-Type application/json. -/
theorem content_type_json_before_body_witness :
    ResponseWriter.lookup
      (apiStatus ⟨⟨"UP"⟩, ⟨"DOWN"⟩, ⟨"UNKNOWN"⟩⟩ ResponseWriter.fresh
        { Method := "GET", Path := "/v2/status", route := none }).sentHeader "Content-Type"
      = some "application/json" ∧
    (apiStatus ⟨⟨"UP"⟩, ⟨"DOWN"⟩, ⟨"UNKNOWN"⟩⟩ ResponseWriter.fresh
        { Method := "GET", Path := "/v2/status", route := none }).body
      = "\x7b\"arrivals\":\"UP\",\"departures\":\"DOWN\",\"services\":\"UNKNOWN\"\x7d\n" :=
  ⟨((content_type_json_before_body ⟨⟨"UP"⟩, ⟨"DOWN"⟩, ⟨"UNKNOWN"⟩⟩ ResponseWriter.fresh
      { Method := "GET", Path := "/v2/status", route := none }).2.2 rfl).2.1, by decide⟩

/-- C10: each of the 14 routes of `ServeAPI` is restricted to GET, and no path
matches the templates of two different routes (a placeholder standing for one
non-empty segment without a slash, the whole path being matched); hence the
route found by the first-match loop of the router is the one selected by
taking the most specific match, and the loop finds the same result when the
routes are registered in any other order.  The last two parts spell out what
matching means: a path matches a template when it is the template with every
placeholder replaced by a non-empty text without a slash, as shown for the
template of the service details. -/
theorem dispatch_match_unique_order_independent :
    (ServeAPIRouter.routes.length = 14 ∧
      ∀ rt ∈ ServeAPIRouter.routes, rt.methods = ["GET"]) ∧
    (∀ (path : String) (a b : Route), a ∈ ServeAPIRouter.routes → b ∈ ServeAPIRouter.routes →
      pathMatches a.template path = true → pathMatches b.template path = true → a = b) ∧
    (∀ r : Request,
      (ServeAPIRouter.Match r).route? = mostSpecificMatch ServeAPIRouter.routes r) ∧
    (∀ (r : Request) (routes' : List Route), routes'.Perm ServeAPIRouter.routes →
      matchRoutes routes' r false = ServeAPIRouter.Match r) ∧
    (∀ template path : String,
      pathMatches template path = true ↔
        ∃ segs : List (List Char), (∀ seg ∈ segs, '/' ∉ seg) ∧ joinSlash segs = path.data ∧
          matchSegs (parseTemplate template) segs = true) ∧
    (∀ path : String,
      pathMatches "/v2/services/service/{id}/{date}" path = true ↔
        ∃ id date : List Char, id ≠ [] ∧ date ≠ [] ∧ '/' ∉ id ∧ '/' ∉ date ∧
          path.data = "/v2/services/service/".data ++ id ++ '/' :: date) := by
  refine ⟨by decide, ?_, ?_, ?_, pathMatches_iff, serviceDetails_path⟩
  · intro path a b ha hb hpa hpb
    by_contra hne
    exact List.Pairwise.forall (fun {x y} h => Apart.symm h) ServeAPI_routes_apart ha hb hne
      path ⟨hpa, hpb⟩
  · intro r
    unfold mostSpecificMatch Router.Match
    rw [filter_routeMatches _ r ServeAPI_routes_apart]
    cases (matchRoutes ServeAPIRouter.routes r false).route? with
    | none => rfl
    | some rt => simp [List.argmax_singleton]
  · intro r routes' hperm
    exact matchRoutes_perm _ routes' r ServeAPI_routes_apart hperm

/-- Witness of C10: a station request matches its route and no other, also
when the routes are registered in reverse order. -/
theorem dispatch_match_unique_order_independent_witness :
    matchRoutes ServeAPIRouter.routes.reverse
        { Method := "GET", Path := "/v2/departures/station/UT", route := none } false =
      MatchResult.found
        { template := "/v2/departures/station/{station}", methods := ["GET"],
          handler := HandlerId.departuresStation } :=
  (dispatch_match_unique_order_independent.2.2.2.1
    { Method := "GET", Path := "/v2/departures/station/UT", route := none }
    ServeAPIRouter.routes.reverse (List.reverse_perm _)).trans (by decide)

/-- C3 (as amended): for each of the 14 routes and every GET request whose
path is in canonical form (mux's `cleanPath` leaves it unchanged) and matches
the route's template, when the route's handler returns, the server runs that
handler wrapped in the middleware, which appends exactly one duration sample
to the histogram and adds exactly 1 to the counter, both under the label equal
to the template of the route, and leaves the histogram and the counter of
every other label (the concrete request path included, when it differs from
the template) as they were. -/
theorem matched_request_records_one_sample (ext : HandlerId → ExtHandler) (world : World)
    (w w' : ResponseWriter) (r : Request) (rt : Route)
    (hmem : rt ∈ ServeAPIRouter.routes) (hget : r.Method = "GET")
    (hpath : pathMatches rt.template r.Path = true)
    (hclean : cleanPath r.Path.data = r.Path.data)
    (hret : handlerResponse ext rt.handler world.stores w { r with route := some rt } = some w') :
    ∃ world' : World,
      ServeAPIHandler ext world w r = some (world', w') ∧
      world'.metrics.httpDuration rt.template =
        world.metrics.httpDuration rt.template ++
          [world.clock (world.reads + 1) - world.clock world.reads] ∧
      world'.metrics.httpReqs rt.template = world.metrics.httpReqs rt.template + 1 ∧
      (∀ label : String, label ≠ rt.template →
        world'.metrics.httpDuration label = world.metrics.httpDuration label ∧
        world'.metrics.httpReqs label = world.metrics.httpReqs label) := by
  have hm := ServeAPIRouter_match_of_path r rt hmem hget hpath
  rw [ServeAPIHandler_found ext world w r rt hclean hm]
  unfold handlerFor
  rw [prometheusMiddleware_ExtHandlerFunc _ world w w' _ rt rfl hret]
  refine ⟨_, rfl, ?_, ?_, ?_⟩
  · simp [Metrics.observe, Metrics.add]
  · simp [Metrics.observe, Metrics.add]
  · intro label hne
    simp [Metrics.observe, Metrics.add, hne]

/-- Witness of C3: a GET request on `/v2/arrivals/station/UT`, served with an
empty registry by a handler that returns, leaves one sample and a count of 1
under the template `/v2/arrivals/station/{station}` and nothing under the
request path. -/
theorem matched_request_records_one_sample_witness :
    ∃ world' : World,
      (ServeAPIHandler (fun _ stores w r => some (apiVersion stores w r))
        { stores := ⟨⟨"UP"⟩, ⟨"UP"⟩, ⟨"UP"⟩⟩, metrics := Metrics.empty,
          clock := fun k => 10 + 5 * k, reads := 0, trace := [] }
        ResponseWriter.fresh
        { Method := "GET", Path := "/v2/arrivals/station/UT", route := none }).map Prod.fst =
        some world' ∧
      world'.metrics.httpDuration "/v2/arrivals/station/{station}" = [5] ∧
      world'.metrics.httpReqs "/v2/arrivals/station/{station}" = 1 ∧
      world'.metrics.httpDuration "/v2/arrivals/station/UT" = [] ∧
      world'.metrics.httpReqs "/v2/arrivals/station/UT" = 0 := by
  obtain ⟨world', h, hd, hc, hother⟩ :=
    matched_request_records_one_sample (fun _ stores w r => some (apiVersion stores w r))
      { stores := ⟨⟨"UP"⟩, ⟨"UP"⟩, ⟨"UP"⟩⟩, metrics := Metrics.empty,
        clock := fun k => 10 + 5 * k, reads := 0, trace := [] }
      ResponseWriter.fresh _
      { Method := "GET", Path := "/v2/arrivals/station/UT", route := none }
      { template := "/v2/arrivals/station/{station}", methods := ["GET"],
        handler := HandlerId.arrivalsStation }
      (by decide) rfl (by decide) (by decide) rfl
  refine ⟨world', by rw [h]; rfl, ?_, ?_, ?_, ?_⟩
  · rw [hd]; rfl
  · rw [hc]; rfl
  · rw [(hother "/v2/arrivals/station/UT" (by decide)).1]; rfl
  · rw [(hother "/v2/arrivals/station/UT" (by decide)).2]; rfl

/-- Counterexample to C3 as first stated: the path `/v2/arrivals/station/..`
of a GET request matches the template `/v2/arrivals/station/{station}` of a
registered route (the placeholder standing for `..`), yet the server, given
handlers that return, answers it with the redirect 301 to `/v2/arrivals`
before any matching: no event is recorded, and the histogram and the counter
under the template stay empty and 0. -/
theorem matched_request_noncanonical_path_not_recorded :
    ({ template := "/v2/arrivals/station/{station}", methods := ["GET"],
       handler := HandlerId.arrivalsStation } : Route) ∈ ServeAPIRouter.routes ∧
    pathMatches "/v2/arrivals/station/{station}" "/v2/arrivals/station/.." = true ∧
    (ServeAPIHandler (fun _ stores w r => some (apiVersion stores w r))
        { stores := ⟨⟨"UP"⟩, ⟨"UP"⟩, ⟨"UP"⟩⟩, metrics := Metrics.empty,
          clock := fun k => 10 + 5 * k, reads := 0, trace := [] }
        ResponseWriter.fresh
        { Method := "GET", Path := "/v2/arrivals/station/..", route := none }).map
      (fun res =>
        (res.1.metrics.httpReqs "/v2/arrivals/station/{station}",
         res.1.metrics.httpDuration "/v2/arrivals/station/{station}",
         res.1.trace, res.2.status,
         ResponseWriter.lookup res.2.sentHeader "Location", res.2.body)) =
      some (0, [], [], 301, some "/v2/arrivals", "") :=
  ⟨by decide, by decide, rfl⟩

/-- C4: a request whose path matches none of the 14 templates is answered
without the middleware being run, by the not-found handler (by the redirect
when its path is not in canonical form): the world, and with it the histogram
and the counter of every label and the record of events, is exactly what it
was before the request. -/
theorem unmatched_path_records_nothing (ext : HandlerId → ExtHandler) (world : World)
    (w : ResponseWriter) (r : Request)
    (hnone : ∀ rt ∈ ServeAPIRouter.routes, pathMatches rt.template r.Path = false) :
    ServeAPIRouter.Match r = MatchResult.notFound ∧
    ∃ world' : World,
      ServeAPIHandler ext world w r =
        some (world',
          if cleanPath r.Path.data = r.Path.data then notFound w else redirectToClean w r) ∧
      world'.trace = world.trace ∧
      ∀ label : String,
        world'.metrics.httpDuration label = world.metrics.httpDuration label ∧
        world'.metrics.httpReqs label = world.metrics.httpReqs label := by
  have hm : ServeAPIRouter.Match r = MatchResult.notFound := by
    unfold Router.Match
    rw [matchRoutes_none _ r false hnone]
    rfl
  refine ⟨hm, world, ?_, rfl, fun _ => ⟨rfl, rfl⟩⟩
  by_cases hclean : cleanPath r.Path.data = r.Path.data <;>
    simp [ServeAPIHandler, Router.ServeHTTP, hm, hclean]

/-- Witness of C4: a GET request on `/v2/arrivals`, which no template matches,
is answered 404 and recorded nowhere. -/
theorem unmatched_path_records_nothing_witness :
    ServeAPIRouter.Match { Method := "GET", Path := "/v2/arrivals", route := none } =
      MatchResult.notFound ∧
    (ServeAPIHandler (fun _ _ _ _ => none)
        { stores := ⟨⟨"UP"⟩, ⟨"UP"⟩, ⟨"UP"⟩⟩, metrics := Metrics.empty, clock := fun k => k,
          reads := 0, trace := [] }
        ResponseWriter.fresh { Method := "GET", Path := "/v2/arrivals", route := none }).map
      (fun res => (res.2.status, res.1.trace, res.1.metrics.httpReqs "/v2/arrivals")) =
      some (404, [], 0) :=
  ⟨(unmatched_path_records_nothing (fun _ _ _ _ => none)
    { stores := ⟨⟨"UP"⟩, ⟨"UP"⟩, ⟨"UP"⟩⟩, metrics := Metrics.empty, clock := fun k => k,
      reads := 0, trace := [] }
    ResponseWriter.fresh { Method := "GET", Path := "/v2/arrivals", route := none }
    (by decide)).1, by decide⟩

/-- C7: on a request that carries a matched route, the middleware wrapped
around a handler function `H` returns normally with exactly the response
`H` produces on the same response writer and request: `H` is called once, with
the `w` and `r` the wrapper received, the stores are untouched, and the wrapper
itself makes no call on the response writer.  More generally, whatever
`http.Handler` is wrapped, the response of the wrapper is the response of that
handler called on the same `w` and `r` in a world with the same stores and
metrics. -/
theorem middleware_response_unchanged (H : Handler) (world : World) (w : ResponseWriter)
    (r : Request) (rt : Route) (hr : r.route = some rt) :
    (∃ world' : World,
      prometheusMiddleware (HandlerFunc H) world w r = some (world', H world.stores w r) ∧
      world'.stores = world.stores ∧
      (world'.trace.drop world.trace.length).filter Event.isHandlerCall =
        [Event.handlerCall w r]) ∧
    (prometheusMiddleware (HandlerFunc H) world w r).map Prod.snd =
      (HandlerFunc H world w r).map Prod.snd ∧
    (∀ next : HTTPHandler, ∃ world₁ : World,
      world₁.stores = world.stores ∧ world₁.metrics = world.metrics ∧
      (prometheusMiddleware next world w r).map Prod.snd = (next world₁ w r).map Prod.snd) := by
  refine ⟨?_, ?_, ?_⟩
  · rw [prometheusMiddleware_HandlerFunc H world w r rt hr]
    refine ⟨_, rfl, rfl, ?_⟩
    simp [Event.isHandlerCall]
  · rw [prometheusMiddleware_HandlerFunc H world w r rt hr]
    rfl
  · intro next
    refine ⟨{ world with
        reads := world.reads + 1
        trace := world.trace ++ [Event.timerStart rt.template (world.clock world.reads),
          Event.handlerCall w r] }, rfl, rfl, ?_⟩
    simp only [prometheusMiddleware, prometheusMiddlewareSteps, runSteps, Frame.enter, hr,
      Option.map_some', Option.some_bind, List.append_assoc, List.singleton_append]
    cases next _ w r <;> simp

/-- Witness of C7: `apiVersion` wrapped in the middleware answers a matched
request as `apiVersion` alone does. -/
theorem middleware_response_unchanged_witness :
    (prometheusMiddleware (HandlerFunc apiVersion)
        { stores := ⟨⟨"UP"⟩, ⟨"UP"⟩, ⟨"UP"⟩⟩, metrics := Metrics.empty, clock := fun k => k,
          reads := 0, trace := [] }
        ResponseWriter.fresh
        { Method := "GET", Path := "/v2", route := some ⟨"/v2", ["GET"], HandlerId.apiVersion⟩ }).map
        Prod.snd =
      (HandlerFunc apiVersion
        { stores := ⟨⟨"UP"⟩, ⟨"UP"⟩, ⟨"UP"⟩⟩, metrics := Metrics.empty, clock := fun k => k,
          reads := 0, trace := [] }
        ResponseWriter.fresh
        { Method := "GET", Path := "/v2", route := some ⟨"/v2", ["GET"], HandlerId.apiVersion⟩ }).map
        Prod.snd :=
  (middleware_response_unchanged apiVersion _ ResponseWriter.fresh
    { Method := "GET", Path := "/v2", route := some ⟨"/v2", ["GET"], HandlerId.apiVersion⟩ }
    ⟨"/v2", ["GET"], HandlerId.apiVersion⟩ rfl).2.1

/-- C8: however far the closure of the middleware has got (after its first
`k` statements, for every `k`), the events recorded so far are an initial part
of: timer started, handler called, handler returned, duration observed,
counter incremented, in this order; the duration sample is in the histogram
only once all statements up to the observation have run (`6 ≤ k`), the
counter is raised only once the last statement has run (`7 ≤ k`).  So the
counter is never incremented without the duration having been recorded, and
neither happens before the handler has returned. -/
theorem middleware_event_order (H : Handler) (world : World) (w : ResponseWriter)
    (r : Request) (rt : Route) (hr : r.route = some rt) (k : Nat) :
    prometheusMiddleware (HandlerFunc H) world w r =
      (prometheusMiddlewarePrefix (HandlerFunc H) 7 world w r).map (fun f => (f.world, f.w)) ∧
    ∃ f : Frame,
      prometheusMiddlewarePrefix (HandlerFunc H) k world w r = some f ∧
      f.world.trace = world.trace ++
        [ Event.timerStart rt.template (world.clock world.reads),
          Event.handlerCall w r,
          Event.handlerReturn (H world.stores w r),
          Event.observe rt.template (world.clock (world.reads + 1) - world.clock world.reads),
          Event.counterAdd rt.template 1 ].take (k - 2) ∧
      f.world.metrics.httpDuration rt.template =
        world.metrics.httpDuration rt.template ++
          (if 6 ≤ k then [world.clock (world.reads + 1) - world.clock world.reads] else []) ∧
      f.world.metrics.httpReqs rt.template =
        world.metrics.httpReqs rt.template + (if 7 ≤ k then 1 else 0) := by
  refine ⟨rfl, ?_⟩
  rcases k with _ | _ | _ | _ | _ | _ | _ | k <;>
    simp [prometheusMiddlewarePrefix, prometheusMiddlewareSteps, runSteps, HandlerFunc,
      Frame.enter, hr, Metrics.observe, Metrics.add]

/-- Witness of C8: interrupted after the handler has returned and before the
observation (five statements), the closure has recorded neither a sample nor a
count. -/
theorem middleware_event_order_witness :
    ∃ f : Frame,
      prometheusMiddlewarePrefix (HandlerFunc apiVersion) 5
        { stores := ⟨⟨"UP"⟩, ⟨"UP"⟩, ⟨"UP"⟩⟩, metrics := Metrics.empty, clock := fun k => 3 * k,
          reads := 0, trace := [] }
        ResponseWriter.fresh
        { Method := "GET", Path := "/v2", route := some ⟨"/v2", ["GET"], HandlerId.apiVersion⟩ }
        = some f ∧
      f.world.trace.length = 3 ∧
      f.world.metrics.httpDuration "/v2" = [] ∧
      f.world.metrics.httpReqs "/v2" = 0 := by
  obtain ⟨f, hf, ht, hd, hc⟩ :=
    (middleware_event_order apiVersion
      { stores := ⟨⟨"UP"⟩, ⟨"UP"⟩, ⟨"UP"⟩⟩, metrics := Metrics.empty, clock := fun k => 3 * k,
        reads := 0, trace := [] }
      ResponseWriter.fresh
      { Method := "GET", Path := "/v2", route := some ⟨"/v2", ["GET"], HandlerId.apiVersion⟩ }
      ⟨"/v2", ["GET"], HandlerId.apiVersion⟩ rfl 5).2
  exact ⟨f, hf, by rw [ht]; rfl, by rw [hd]; rfl, by rw [hc]; rfl⟩

theorem ServeAPIStep_initial (s : LifeState) (e : EnvStep)
    (h : ∃ v, s.trace = (ServeAPIFullTrace v).take s.pc.index) :
    ∃ v, (ServeAPIStep s e).trace = (ServeAPIFullTrace v).take (ServeAPIStep s e).pc.index := by
  obtain ⟨v, hv⟩ := h
  obtain ⟨pc, tr⟩ := s
  cases pc <;> simp only [Pc.index, ServeAPIFullTrace, List.take] at hv <;> subst hv
  · exact ⟨v, rfl⟩
  · exact ⟨v, rfl⟩
  · cases ho : e.offer with
    | none => exact ⟨v, by simp [ServeAPIStep, ho, Pc.index, ServeAPIFullTrace]⟩
    | some v' => exact ⟨v', by simp [ServeAPIStep, ho, Pc.index, ServeAPIFullTrace]⟩
  · exact ⟨v, rfl⟩
  · exact ⟨v, rfl⟩
  · cases hc : e.closeDone <;>
      exact ⟨v, by simp [ServeAPIStep, hc, Pc.index, ServeAPIFullTrace]⟩
  · exact ⟨v, rfl⟩
  · cases ht : e.taker <;>
      exact ⟨v, by simp [ServeAPIStep, ht, Pc.index, ServeAPIFullTrace]⟩
  · exact ⟨v, rfl⟩

theorem ServeAPI_foldl_initial (schedule : List EnvStep) (s : LifeState)
    (h : ∃ v, s.trace = (ServeAPIFullTrace v).take s.pc.index) :
    ∃ v, (schedule.foldl ServeAPIStep s).trace =
      (ServeAPIFullTrace v).take (schedule.foldl ServeAPIStep s).pc.index := by
  induction schedule generalizing s with
  | nil => exact h
  | cons e es ih => exact ih _ (ServeAPIStep_initial s e h)

/-- C5: under every schedule of the environment, the events of `ServeAPI` so
far are an initial part of the one full sequence: listener started, start
logged, a value received on `exit`, shutdown logged, `srv.Close` called,
`srv.Close` returned, shut-down logged, `true` sent on `exit`.  An
acknowledgment that has been sent is therefore the value `true`, sent once, as
the last event, after the stop signal was received and after `Close` returned;
`ServeAPI` has returned exactly when it has been sent; and an environment that
offers the stop signal, lets `Close` finish and takes the acknowledgment sees
`ServeAPI` run to its end. -/
theorem shutdown_handshake_order (schedule : List EnvStep) :
    (∃ v, (ServeAPI schedule).trace =
      (ServeAPIFullTrace v).take (ServeAPI schedule).pc.index) ∧
    (∀ b, LifeEvent.sent b ∈ (ServeAPI schedule).trace →
      b = true ∧ ∃ v, (ServeAPI schedule).trace = ServeAPIFullTrace v) ∧
    (LifeEvent.closeReturned ∈ (ServeAPI schedule).trace →
      ∃ v, (ServeAPI schedule).trace.take 6 = (ServeAPIFullTrace v).take 6) ∧
    ((ServeAPI schedule).trace.countP LifeEvent.isSent ≤ 1) ∧
    ((ServeAPI schedule).pc = Pc.returned ↔
      (ServeAPI schedule).trace.countP LifeEvent.isSent = 1) ∧
    (∀ v, ServeAPI (List.replicate 8 { offer := some v, taker := true, closeDone := true }) =
      { pc := Pc.returned, trace := ServeAPIFullTrace v }) := by
  have hpre : ∃ v, (ServeAPI schedule).trace =
      (ServeAPIFullTrace v).take (ServeAPI schedule).pc.index :=
    ServeAPI_foldl_initial schedule ServeAPIStart ⟨true, rfl⟩
  generalize ServeAPI schedule = s at hpre ⊢
  obtain ⟨v, hv⟩ := hpre
  obtain ⟨pc, tr⟩ := s
  refine ⟨⟨v, hv⟩, ?_, ?_, ?_, ?_, ?_⟩
  · intro b hb
    cases pc <;> simp only [Pc.index, ServeAPIFullTrace, List.take] at hv <;> subst hv <;>
      simp at hb
    exact ⟨hb, v, rfl⟩
  · intro hc
    cases pc <;> simp only [Pc.index, ServeAPIFullTrace, List.take] at hv <;> subst hv <;>
      simp at hc <;> exact ⟨v, rfl⟩
  · cases pc <;> simp only [Pc.index, ServeAPIFullTrace, List.take] at hv <;> subst hv <;>
      simp [LifeEvent.isSent]
  · cases pc <;> simp only [Pc.index, ServeAPIFullTrace, List.take] at hv <;> subst hv <;>
      simp [LifeEvent.isSent]
  · intro v'
    cases v' <;> rfl

/-- Witness of C5: when the stop signal is offered, `Close` finishes and the
acknowledgment is taken, the acknowledgment `true` is in the record and the
record is the full sequence; when no stop signal is offered, `ServeAPI` stays
at the receive and nothing is acknowledged. -/
theorem shutdown_handshake_order_witness :
    (∃ v, (ServeAPI (List.replicate 8 { offer := some false, taker := true, closeDone := true })).trace
      = ServeAPIFullTrace v) ∧
    ServeAPI (List.replicate 8 { offer := none, taker := true, closeDone := true }) =
      { pc := Pc.recvExit,
        trace := [LifeEvent.spawned, LifeEvent.logged "REST API started"] } :=
  ⟨((shutdown_handshake_order
      (List.replicate 8 { offer := some false, taker := true, closeDone := true })).2.1 true
      (by decide)).2, by decide⟩

/-- C6: `listenAndServe` ends the process through the fatal log exactly when
`srv.ListenAndServe` returns an error that is not nil and not
`http.ErrServerClosed`, logging that error; when the call returns nil or
`http.ErrServerClosed` it returns normally and logs nothing; in every case it
calls `srv.ListenAndServe` once and never again. -/
theorem listenAndServe_fatal_iff_unexpected_error (srv : Nat → Option GoError) :
    ((listenAndServe.run srv 0).exited = true ↔
      ∃ e, srv 0 = some e ∧ e ≠ GoError.ErrServerClosed) ∧
    (∀ e, srv 0 = some e → e ≠ GoError.ErrServerClosed →
      listenAndServe.run srv 0 =
        { calls := 1, fatalLog := [("REST API fatal error", e)], exited := true }) ∧
    (srv 0 = none ∨ srv 0 = some GoError.ErrServerClosed →
      listenAndServe.run srv 0 = { calls := 1, fatalLog := [], exited := false }) ∧
    (listenAndServe.run srv 0).calls = 1 := by
  cases h : srv 0 with
  | none => simp [listenAndServe, Prog.run, h]
  | some e =>
    by_cases he : e = GoError.ErrServerClosed
    · simp [listenAndServe, Prog.run, h, he]
    · simp [listenAndServe, Prog.run, h, he]

/-- Witness of C6: a server closed by the shutdown makes `listenAndServe`
return normally, an address already in use ends the process. -/
theorem listenAndServe_fatal_iff_unexpected_error_witness :
    listenAndServe.run (fun _ => some GoError.ErrServerClosed) 0 =
      { calls := 1, fatalLog := [], exited := false } ∧
    listenAndServe.run (fun _ => some (GoError.other "address already in use")) 0 =
      { calls := 1, fatalLog := [("REST API fatal error", GoError.other "address already in use")],
        exited := true } :=
  ⟨(listenAndServe_fatal_iff_unexpected_error (fun _ => some GoError.ErrServerClosed)).2.2.1
      (Or.inr rfl),
   (listenAndServe_fatal_iff_unexpected_error
      (fun _ => some (GoError.other "address already in use"))).2.1 _ rfl (by decide)⟩

end Gotrain
